import Mathlib

/-!
Verification of the book-scraper core (`books_scraper.py`, `books_filter.py`)
against its natural-language specification.

Python strings are modelled as Lean `String`; the string operations the
program uses (`replace`, `lstrip`, `rstrip`, `strip`, `lower`, `startswith`,
substring test, `rsplit("/", 1)[0]`) are re-implemented on the underlying
character lists by structural (or fuel-based) recursion so that every
definition evaluates inside the kernel.

Python floats only ever arise in this program from parsing decimal literals
and are written back with `str`; they are modelled exactly as signed decimal
fixed-point numbers (`PyFloat`: an integer mantissa and a decimal exponent),
whose rational value is the float's numeric value.
-/

namespace BookScraper

/-! Section: Character-list string primitives -/

def startsWithList : List Char → List Char → Bool
  | _, [] => true
  | [], _ :: _ => false
  | c :: cs, p :: ps => c == p && startsWithList cs ps

def containsList (pat : List Char) : List Char → Bool
  | [] => startsWithList [] pat
  | c :: cs => startsWithList (c :: cs) pat || containsList pat cs

/-- Helper `replaceGo pat rep fuel cs` replaces non-overlapping occurrences of
`pat` in `cs` by `rep`, left to right, as Python `str.replace` does;
`fuel ≥ cs.length` suffices for the scan to finish. -/
def replaceGo (pat rep : List Char) : Nat → List Char → List Char
  | 0, cs => cs
  | _ + 1, [] => []
  | f + 1, c :: cs =>
    if startsWithList (c :: cs) pat && !pat.isEmpty then
      rep ++ replaceGo pat rep f (List.drop (pat.length - 1) cs)
    else
      c :: replaceGo pat rep f cs

/-- Python `s.replace(pat, rep)` (for a non-empty pattern). -/
def pyReplace (s pat rep : String) : String :=
  ⟨replaceGo pat.data rep.data s.data.length s.data⟩

/-- Python `s.startswith(pat)`. -/
def pyStartsWith (s pat : String) : Bool :=
  startsWithList s.data pat.data

/-- Python `pat in s` (substring test). -/
def pyContains (s pat : String) : Bool :=
  containsList pat.data s.data

/-- Python `s.lstrip(c)` for a single-character strip set. -/
def pyLStrip (c : Char) (s : String) : String :=
  ⟨s.data.dropWhile (fun d => d == c)⟩

/-- Python `s.rstrip(c)` for a single-character strip set. -/
def pyRStrip (c : Char) (s : String) : String :=
  ⟨((s.data.reverse.dropWhile (fun d => d == c))).reverse⟩

/-- The whitespace set Python `str.strip()` removes (ASCII part). -/
def pyIsSpace (c : Char) : Bool :=
  c == ' ' || c == '\t' || c == '\n' || c == '\r' || c == '\x0b' || c == '\x0c'

/-- Python `s.strip()`. -/
def pyStrip (s : String) : String :=
  ⟨((s.data.dropWhile pyIsSpace).reverse.dropWhile pyIsSpace).reverse⟩

def asciiLower (c : Char) : Char :=
  if 'A' ≤ c && c ≤ 'Z' then Char.ofNat (c.toNat + 32) else c

/-- Python `s.lower()` (ASCII part). -/
def pyLower (s : String) : String :=
  ⟨s.data.map asciiLower⟩

/-- Python `s.rsplit("/", 1)[0]`: everything before the last `'/'`,
or `s` itself when there is no `'/'`. -/
def pyDirname (s : String) : String :=
  let r := s.data.reverse.dropWhile (fun d => d != '/')
  match r with
  | [] => s
  | _ :: t => ⟨t.reverse⟩

/-! Section: Exact decimal model of the Python floats used by the program -/

/-- A Python float as this program produces them (always parsed from a
decimal literal): mantissa `m` and decimal exponent `e`, denoting `m / 10^e`. -/
structure PyFloat where
  m : Int
  e : Nat
deriving DecidableEq

/-- The numeric value of a `PyFloat`. -/
def PyFloat.val (p : PyFloat) : ℚ := (p.m : ℚ) / (10 : ℚ) ^ p.e

/-- The Python literal `0.0`. -/
def pyFloatZero : PyFloat := ⟨0, 1⟩

def isDigitC (c : Char) : Bool := 48 ≤ c.toNat && c.toNat ≤ 57

def digitVal (c : Char) : Nat := c.toNat - 48

def digitChar (d : Nat) : Char := Char.ofNat (48 + d)

/-- Value of a most-significant-first digit list. -/
def digitsVal (ds : List Nat) : Nat := ds.foldl (fun a d => 10 * a + d) 0

/-- Most-significant-first decimal digits of `n`, fuel-based so that the
kernel can evaluate it (`fuel ≥ n` suffices). -/
def natDigitsGo : Nat → Nat → List Nat → List Nat
  | 0, _, acc => acc
  | _ + 1, 0, acc => acc
  | f + 1, n + 1, acc => natDigitsGo f ((n + 1) / 10) ((n + 1) % 10 :: acc)

def natDigits (n : Nat) : List Nat :=
  if n = 0 then [0] else natDigitsGo n n []

def splitSign (cs : List Char) : Bool × List Char :=
  match cs with
  | [] => (false, [])
  | c :: t => if c = '-' then (true, t) else if c = '+' then (false, t) else (false, c :: t)

def tailOrNil : List Char → List Char
  | [] => []
  | _ :: t => t

/-- Python `float(s)` on plain decimal notation: optional sign, digits,
optional fraction; anything else fails (returns `none`). -/
def pyParseFloat (s : String) : Option PyFloat :=
  let neg := (splitSign s.data).1
  let cs1 := (splitSign s.data).2
  let ip := cs1.takeWhile (fun c => c != '.')
  let rest := cs1.dropWhile (fun c => c != '.')
  let fp : List Char := tailOrNil rest
  if (ip ++ fp).all isDigitC && !(ip ++ fp).isEmpty then
    let n : Nat := digitsVal ((ip ++ fp).map digitVal)
    some ⟨if neg then -(n : Int) else (n : Int), fp.length⟩
  else none

/-- Python `str` of a float in this model: the mantissa's digits with the
decimal point inserted `e` places from the right (sign in front). -/
def pyStrFloat (p : PyFloat) : String :=
  let ds := natDigits p.m.natAbs
  let pds := List.replicate (p.e + 1 - ds.length) 0 ++ ds
  let ics := (pds.take (pds.length - p.e)).map digitChar
  let fcs := (pds.drop (pds.length - p.e)).map digitChar
  ⟨(if p.m < 0 then ['-'] else []) ++ ics ++ (if p.e = 0 then [] else '.' :: fcs)⟩

/-- Python `str` of a bool. -/
def pyStrBool (b : Bool) : String := if b then "True" else "False"

end BookScraper

namespace BookScraper

/-! Section: Data model

A listing page's markup, after HTML parsing, is abstracted to exactly the
fragments the program reads: for each `article.product_pod` entry the
`h3 a` anchor (with its optional `title` and `href` attributes), the
stripped text of `.price_color`, the stripped text of `.availability`,
and the `class` attribute of `.star-rating`; plus the optional
`li.next a` link (with its optional `href`). -/

/-- The `h3 a` anchor of a listing entry. -/
structure Anchor where
  titleAttr : Option String
  href : Option String
deriving DecidableEq

/-- One `article.product_pod` listing entry. -/
structure Entry where
  /-- The tag `art.select_one("h3 a")`. -/
  titleTag : Option Anchor
  /-- Stripped text of `art.select_one(".price_color")`. -/
  priceText : Option String
  /-- Stripped text of `art.select_one(".availability")`. -/
  availText : Option String
  /-- The tag `art.select_one(".star-rating")`: `none` when absent, `some none`
  when present without a `class` attribute, else its class list. -/
  ratingClasses : Option (Option (List String))
deriving DecidableEq

/-- A parsed listing document: its entries in document order, and the
`li.next a` link (`none` when absent, `some none` when it has no `href`). -/
structure Doc where
  entries : List Entry
  nextLink : Option (Option String)
deriving DecidableEq

/-- The constant `BASE_URL` from `books_scraper.py`. -/
def BASE_URL : String := "https://books.toscrape.com/"

/-- One scraped record (`Book` dataclass, same field order). -/
structure Book where
  title : String
  price_gbp : PyFloat
  in_stock : Bool
  stock_text : String
  rating : String
  product_url : String
deriving DecidableEq

/-! Section: Field Extractor (`parse_book_list_page`) -/

/-- The Title block: `title_tag["title"].strip()` when the anchor and its
`title` attribute exist, else `"UNKNOWN"`. -/
def extractTitle (t : Option Anchor) : String :=
  match t with
  | some a =>
    match a.titleAttr with
    | some s => pyStrip s
    | none => "UNKNOWN"
  | none => "UNKNOWN"

/-- The href read: `title_tag["href"] if title_tag and title_tag.has_attr("href") else ""`. -/
def extractHref (t : Option Anchor) : String :=
  match t with
  | some a => a.href.getD ""
  | none => ""

/-- The Detail-URL block: rewrite `"../../../"` to `"catalogue/"`, strip
leading slashes, concatenate onto `BASE_URL`. -/
def extractUrl (t : Option Anchor) : String :=
  BASE_URL ++ pyLStrip '/' (pyReplace (extractHref t) "../../../" "catalogue/")

/-- The Price block: `float(raw_price.replace("£", ""))` with raw price
defaulting to `"£0.00"` and parse failure defaulting to `0.0`. -/
def extractPrice (pt : Option String) : PyFloat :=
  let raw := pt.getD "£0.00"
  (pyParseFloat (pyReplace raw "£" "")).getD pyFloatZero

/-- The Stock block, text part: availability text or `""`. -/
def extractStockText (st : Option String) : String := st.getD ""

/-- The Stock block, flag part: `"In stock" in stock_text`. -/
def extractInStock (st : Option String) : Bool :=
  pyContains (extractStockText st) "In stock"

/-- The Rating block: first class other than `"star-rating"`, else
`"Unknown"` (also when the marker or its `class` attribute is absent). -/
def extractRating (rt : Option (Option (List String))) : String :=
  match rt with
  | some (some classes) => ((classes.find? (fun c => c != "star-rating")).getD "Unknown")
  | some none => "Unknown"
  | none => "Unknown"

/-- The record built for one listing entry (the loop body of
`parse_book_list_page`). -/
def extractBook (e : Entry) : Book :=
  { title := extractTitle e.titleTag
    price_gbp := extractPrice e.priceText
    in_stock := extractInStock e.availText
    stock_text := extractStockText e.availText
    rating := extractRating e.ratingClasses
    product_url := extractUrl e.titleTag }

/-- The Extractor `parse_book_list_page`: one record per entry, in document order. -/
def parse_book_list_page (d : Doc) : List Book :=
  d.entries.map extractBook

/-! Section: Pagination Navigator (`find_next_page_url`) -/

def find_next_page_url (d : Doc) (current_url : String) : Option String :=
  match d.nextLink with
  | some (some href) =>
    let base :=
      if pyContains current_url "catalogue/" then pyDirname current_url
      else pyRStrip '/' BASE_URL
    if pyStartsWith href "http" then some href
    else if pyStartsWith href "/" then some (pyRStrip '/' BASE_URL ++ href)
    else some (base ++ "/" ++ href)
  | some none => none
  | none => none

/-- Whether an href carries a URL scheme (the spec's notion of "already
absolute"), formalised as containing `"://"`. -/
def carriesScheme (href : String) : Bool := pyContains href "://"

/-- The spec's resolution rules for §4.3, as written: (1) carries a scheme
→ as-is; (2) leading slash → site root; (3) otherwise → directory of
`current_url` when it sits under `catalogue/`, else the site root's
directory. -/
def specResolveNext (href current_url : String) : String :=
  if carriesScheme href then href
  else if pyStartsWith href "/" then pyRStrip '/' BASE_URL ++ href
  else if pyContains current_url "catalogue/" then pyDirname current_url ++ "/" ++ href
  else pyRStrip '/' BASE_URL ++ "/" ++ href

/-- The amended resolution rules: rule (1)'s test is the literal string
test `href.startswith("http")`, not the presence of a scheme. -/
def specResolveNextHttpRule (href current_url : String) : String :=
  if pyStartsWith href "http" then href
  else if pyStartsWith href "/" then pyRStrip '/' BASE_URL ++ href
  else if pyContains current_url "catalogue/" then pyDirname current_url ++ "/" ++ href
  else pyRStrip '/' BASE_URL ++ "/" ++ href

/-! Section: Crawl Orchestrator (`scrape_all_books`)

The network is a function `fetch : String → Option Doc` (fetching and
HTML-parsing collapsed into one step; `none` is a fetch failure).  The
`while current_url` loop is embedded with explicit fuel; besides the
accumulated records it returns the list of URLs the loop fetched, in
order, as the crawl's visit trace. -/

def scrapeGo (fetch : String → Option Doc) : Nat → String → List Book × List String
  | 0, _ => ([], [])
  | fuel + 1, url =>
    if url = "" then ([], [])
    else
      match fetch url with
      | none => ([], [url])
      | some doc =>
        let books := parse_book_list_page doc
        match find_next_page_url doc url with
        | none => (books, [url])
        | some nextUrl =>
          let rest := scrapeGo fetch fuel nextUrl
          (books ++ rest.1, url :: rest.2)

/-- The Orchestrator `scrape_all_books`: records accumulated by the crawl loop, paired with
the visit trace. -/
def scrape_all_books (fetch : String → Option Doc) (fuel : Nat)
    (start_url : String := BASE_URL) : List Book × List String :=
  scrapeGo fetch fuel start_url

/-- The URL of a chain's first page, when the chain is non-empty. -/
def chainNext : List (String × Doc) → Option String
  | [] => none
  | (u, _) :: _ => some u

/-- The URL of a chain's first page, defaulting to `dflt` when empty. -/
def headUrl : List (String × Doc) → String → String
  | [], dflt => dflt
  | (u, _) :: _, _ => u

/-- A finite successful "next" chain: every page fetches, each page's
navigator result is the next page's URL, and the last page's navigator
result is `none`. -/
def chainOk (fetch : String → Option Doc) : List (String × Doc) → Prop
  | [] => True
  | (u, d) :: rest =>
    u ≠ "" ∧ fetch u = some d ∧ find_next_page_url d u = chainNext rest ∧
      chainOk fetch rest

/-- A successful chain whose last page links onward to `failUrl` (the page
whose fetch will fail); the empty chain means the very first page fails. -/
def chainTo (fetch : String → Option Doc) (failUrl : String) :
    List (String × Doc) → Prop
  | [] => True
  | (u, d) :: rest =>
    u ≠ "" ∧ fetch u = some d ∧
      find_next_page_url d u = some (headUrl rest failUrl) ∧
      chainTo fetch failUrl rest

/-! Section: Record Sink (`save_books_to_csv`) and Record Source
(`load_books_from_csv`)

The flat file is modelled at the CSV row level: a list of rows, each a
list of cells (the `csv` module's quoting round-trips cells losslessly).
The sink takes the file's previous contents and returns the new ones;
with no books it returns early, leaving the file as it was. -/

/-- The header row `fieldnames = list(asdict(books[0]).keys())`: the `Book` dataclass
field order. -/
def csvHeader : List String :=
  ["title", "price_gbp", "in_stock", "stock_text", "rating", "product_url"]

/-- One data row, `writer.writerow(asdict(book))`: each value through Python `str`. -/
def rowOf (b : Book) : List String :=
  [b.title, pyStrFloat b.price_gbp, pyStrBool b.in_stock, b.stock_text,
    b.rating, b.product_url]

def save_books_to_csv (books : List Book) (oldFile : List (List String)) :
    List (List String) :=
  if books.isEmpty then oldFile
  else csvHeader :: books.map rowOf

/-- The price cell parse `float(row["price_gbp"])` with `ValueError → 0.0` (the `KeyError`
branch is handled at the lookup site). -/
def loadPriceCell (s : String) : PyFloat :=
  (pyParseFloat s).getD pyFloatZero

/-- The stock cell test `str(in_stock_raw).lower() in ("true", "1", "yes")`. -/
def loadInStock (raw : String) : Bool :=
  pyLower raw = "true" || pyLower raw = "1" || pyLower raw = "yes"

/-- The loop body of `load_books_from_csv` on one `DictReader` row
(an association list of column name to cell). -/
def loadRow (row : List (String × String)) : Book :=
  { title := pyStrip ((row.lookup "title").getD "")
    price_gbp :=
      match row.lookup "price_gbp" with
      | none => pyFloatZero
      | some s => loadPriceCell s
    in_stock := loadInStock ((row.lookup "in_stock").getD "False")
    stock_text := pyStrip ((row.lookup "stock_text").getD "")
    rating := pyStrip ((row.lookup "rating").getD "")
    product_url := pyStrip ((row.lookup "product_url").getD "") }

/-- The Source `load_books_from_csv`: the first row is the header (`DictReader`
fieldnames); each later row is read through `loadRow`. -/
def load_books_from_csv (file : List (List String)) : List Book :=
  match file with
  | [] => []
  | header :: rows => rows.map (fun cells => loadRow (header.zip cells))

end BookScraper

namespace BookScraper

/-! Section: Decimal digit lemmas -/

theorem natDigitsGo_zero (f : Nat) (acc : List Nat) : natDigitsGo f 0 acc = acc := by
  cases f <;> rfl

theorem natDigitsGo_append (f : Nat) :
    ∀ (n : Nat) (acc : List Nat), natDigitsGo f n acc = natDigitsGo f n [] ++ acc := by
  induction f with
  | zero => intro n acc; rfl
  | succ f ih =>
    intro n acc
    cases n with
    | zero => rfl
    | succ n =>
      rw [natDigitsGo, natDigitsGo, ih ((n + 1) / 10) ((n + 1) % 10 :: acc),
        ih ((n + 1) / 10) [(n + 1) % 10], List.append_assoc]
      rfl

theorem foldl_digit_shift (ds : List Nat) :
    ∀ a : Nat, ds.foldl (fun a d => 10 * a + d) a = a * 10 ^ ds.length + digitsVal ds := by
  induction ds with
  | nil => intro a; simp [digitsVal]
  | cons d ds ih =>
    intro a
    have h1 := ih (10 * a + d)
    have h2 := ih d
    simp only [List.foldl_cons, List.length_cons]
    rw [h1]
    have : digitsVal (d :: ds) = d * 10 ^ ds.length + digitsVal ds := by
      simp only [digitsVal, List.foldl_cons]
      simpa using h2
    rw [this]
    ring

theorem digitsVal_append (xs ys : List Nat) :
    digitsVal (xs ++ ys) = digitsVal xs * 10 ^ ys.length + digitsVal ys := by
  simp only [digitsVal, List.foldl_append]
  exact foldl_digit_shift ys _

theorem digitsVal_replicate_zero (k : Nat) (ds : List Nat) :
    digitsVal (List.replicate k 0 ++ ds) = digitsVal ds := by
  rw [digitsVal_append]
  have : digitsVal (List.replicate k 0) = 0 := by
    induction k with
    | zero => rfl
    | succ k ih =>
      simp only [List.replicate_succ, digitsVal, List.foldl_cons] at *
      simpa using ih
  simp [this]

theorem digitsVal_natDigitsGo (f : Nat) :
    ∀ n : Nat, 0 < n → n ≤ f → digitsVal (natDigitsGo f n []) = n := by
  induction f with
  | zero => intro n h1 h2; omega
  | succ f ih =>
    intro n h1 h2
    cases n with
    | zero => omega
    | succ n =>
      rw [natDigitsGo, natDigitsGo_append]
      by_cases hq : (n + 1) / 10 = 0
      · rw [hq, natDigitsGo_zero]
        have : (n + 1) % 10 = n + 1 := by omega
        simp [digitsVal, this]
      · have hle : (n + 1) / 10 ≤ f := by omega
        rw [digitsVal_append, ih ((n + 1) / 10) (by omega) hle]
        simp only [List.length_cons, List.length_nil, pow_one, digitsVal,
          List.foldl_cons, List.foldl_nil]
        omega

theorem digitsVal_natDigits (n : Nat) : digitsVal (natDigits n) = n := by
  by_cases h : n = 0
  · subst h; rfl
  · rw [natDigits, if_neg h, digitsVal_natDigitsGo n n (by omega) le_rfl]

theorem natDigits_ne_nil (n : Nat) : natDigits n ≠ [] := by
  by_cases h : n = 0
  · subst h; simp [natDigits]
  · rw [natDigits, if_neg h]
    cases n with
    | zero => omega
    | succ n =>
      rw [natDigitsGo, natDigitsGo_append]
      simp

theorem natDigitsGo_lt_ten (f : Nat) :
    ∀ (n : Nat) (acc : List Nat), (∀ d ∈ acc, d < 10) →
      ∀ d ∈ natDigitsGo f n acc, d < 10 := by
  induction f with
  | zero => intro n acc hacc; exact hacc
  | succ f ih =>
    intro n acc hacc
    cases n with
    | zero => exact hacc
    | succ n =>
      rw [natDigitsGo]
      refine ih ((n + 1) / 10) ((n + 1) % 10 :: acc) ?_
      intro d hd
      rcases List.mem_cons.mp hd with h | h
      · subst h; omega
      · exact hacc d h

theorem natDigits_lt_ten (n : Nat) : ∀ d ∈ natDigits n, d < 10 := by
  by_cases h : n = 0
  · subst h; intro d hd; simp [natDigits] at hd; omega
  · rw [natDigits, if_neg h]
    exact natDigitsGo_lt_ten n n [] (by intro d hd; cases hd)

/-! Section: Digit character lemmas -/

theorem digitChar_isDigitC {d : Nat} (h : d < 10) : isDigitC (digitChar d) = true := by
  interval_cases d <;> decide

theorem digitVal_digitChar {d : Nat} (h : d < 10) : digitVal (digitChar d) = d := by
  interval_cases d <;> decide

theorem isDigitC_ne_dot {c : Char} (h : isDigitC c = true) : (c != '.') = true := by
  simp only [bne_iff_ne, ne_eq]
  rintro rfl
  exact absurd h (by decide)

theorem splitSign_of_digit (c : Char) (cs : List Char) (h : isDigitC c = true) :
    splitSign (c :: cs) = (false, c :: cs) := by
  have h1 : c ≠ '-' := by rintro rfl; exact absurd h (by decide)
  have h2 : c ≠ '+' := by rintro rfl; exact absurd h (by decide)
  simp [splitSign, h1, h2]

theorem splitSign_minus (cs : List Char) : splitSign ('-' :: cs) = (true, cs) := by
  simp [splitSign]

theorem map_digitVal_digitChar {ds : List Nat} (h : ∀ d ∈ ds, d < 10) :
    (ds.map digitChar).map digitVal = ds := by
  rw [List.map_map]
  have : ds.map (digitVal ∘ digitChar) = ds.map id :=
    List.map_congr_left (fun d hd => digitVal_digitChar (h d hd))
  rw [this, List.map_id]

theorem all_isDigitC_map_digitChar {ds : List Nat} (h : ∀ d ∈ ds, d < 10) :
    (ds.map digitChar).all isDigitC = true := by
  rw [List.all_eq_true]
  intro c hc
  rcases List.mem_map.mp hc with ⟨d, hd, rfl⟩
  exact digitChar_isDigitC (h d hd)

end BookScraper

namespace BookScraper

/-- Parsing the positional decimal rendering of a digit list recovers the
mantissa and exponent exactly. -/
theorem pyParseFloat_strData (pds : List Nat) (e : Nat) (neg : Bool)
    (hd : ∀ d ∈ pds, d < 10) (hlen : e + 1 ≤ pds.length) :
    pyParseFloat ⟨(if neg = true then ['-'] else []) ++
        (pds.take (pds.length - e)).map digitChar ++
        (if e = 0 then [] else '.' :: (pds.drop (pds.length - e)).map digitChar)⟩ =
      some ⟨if neg = true then -(digitsVal pds : Int) else (digitsVal pds : Int), e⟩ := by
  have hpne : pds ≠ [] := by intro h; rw [h] at hlen; simp at hlen
  set K := pds.length - e with hKdef
  set ics := (pds.take K).map digitChar with hicsdef
  set dotp : List Char :=
    (if e = 0 then [] else '.' :: (pds.drop K).map digitChar) with hdotdef
  have htake : ∀ d ∈ pds.take K, d < 10 := fun d hd' => hd d (List.take_subset _ _ hd')
  have hicsd : ∀ c ∈ ics, isDigitC c = true := by
    intro c hc
    rcases List.mem_map.mp hc with ⟨d, hdm, rfl⟩
    exact digitChar_isDigitC (htake d hdm)
  have hicsdot : ∀ c ∈ ics, (fun c => c != '.') c = true :=
    fun c hc => isDigitC_ne_dot (hicsd c hc)
  have hicsne : ics ≠ [] := by
    refine List.length_pos.mp ?_
    rw [hicsdef]
    simp only [List.length_map, List.length_take]
    omega
  have hsplit : splitSign ((if neg = true then ['-'] else []) ++ (ics ++ dotp)) =
      (neg, ics ++ dotp) := by
    cases neg with
    | true =>
      simp only [if_pos rfl, List.cons_append, List.nil_append]
      exact splitSign_minus _
    | false =>
      simp only [Bool.false_eq_true, if_neg, List.nil_append]
      obtain ⟨c0, ics', hics⟩ := List.exists_cons_of_ne_nil hicsne
      rw [hics, List.cons_append]
      exact splitSign_of_digit c0 _ (hicsd c0 (by rw [hics]; exact List.mem_cons_self _ _))
  have hdtake : dotp.takeWhile (fun c => c != '.') = [] := by
    by_cases e0 : e = 0
    · simp [hdotdef, e0]
    · rw [hdotdef, if_neg e0, List.takeWhile_cons_of_neg]
      decide
  have hddrop : dotp.dropWhile (fun c => c != '.') = dotp := by
    by_cases e0 : e = 0
    · simp [hdotdef, e0]
    · rw [hdotdef, if_neg e0, List.dropWhile_cons_of_neg]
      decide
  have hfp : tailOrNil dotp = (pds.drop K).map digitChar := by
    by_cases e0 : e = 0
    · rw [hdotdef, if_pos e0]
      have : K = pds.length := by omega
      rw [this, List.drop_length]
      rfl
    · rw [hdotdef, if_neg e0]
      rfl
  have happ : ics ++ (pds.drop K).map digitChar = pds.map digitChar := by
    rw [hicsdef, ← List.map_append, List.take_append_drop]
  obtain ⟨q, qs, hq⟩ := List.exists_cons_of_ne_nil hpne
  have hall : (pds.map digitChar).all isDigitC = true := all_isDigitC_map_digitChar hd
  have hnemp : (pds.map digitChar).isEmpty = false := by
    rw [hq]; rfl
  have hvals : (pds.map digitChar).map digitVal = pds := map_digitVal_digitChar hd
  have hfplen : ((pds.drop K).map digitChar).length = e := by
    simp only [List.length_map, List.length_drop]
    omega
  rw [show (⟨(if neg = true then ['-'] else []) ++ (pds.take (pds.length - e)).map digitChar ++
        (if e = 0 then [] else '.' :: (pds.drop (pds.length - e)).map digitChar)⟩ : String) =
      ⟨(if neg = true then ['-'] else []) ++ (ics ++ dotp)⟩ from by
    rw [List.append_assoc]]
  simp only [pyParseFloat]
  rw [hsplit]
  simp only
  rw [List.takeWhile_append_of_pos hicsdot, List.dropWhile_append_of_pos hicsdot,
    hdtake, hddrop, List.append_nil, hfp, happ, hall, hnemp, hvals, hfplen]
  simp

theorem if_true_cond {α : Sort _} (a b : α) : (if true = true then a else b) = a := rfl

theorem if_false_cond {α : Sort _} (a b : α) : (if false = true then a else b) = b := rfl

/-- The serialize-then-parse round trip recovers a `PyFloat` exactly. -/
theorem pyParseFloat_pyStrFloat (p : PyFloat) :
    pyParseFloat (pyStrFloat p) = some p := by
  obtain ⟨m, e⟩ := p
  have hdlt : ∀ d ∈ List.replicate (e + 1 - (natDigits m.natAbs).length) 0 ++
      natDigits m.natAbs, d < 10 := by
    intro d hd
    rcases List.mem_append.mp hd with h | h
    · rw [List.eq_of_mem_replicate h]; omega
    · exact natDigits_lt_ten _ d h
  have hlen1 : 1 ≤ (natDigits m.natAbs).length :=
    List.length_pos.mpr (natDigits_ne_nil _)
  have hlen : e + 1 ≤ (List.replicate (e + 1 - (natDigits m.natAbs).length) 0 ++
      natDigits m.natAbs).length := by
    simp only [List.length_append, List.length_replicate]
    omega
  have hval : digitsVal (List.replicate (e + 1 - (natDigits m.natAbs).length) 0 ++
      natDigits m.natAbs) = m.natAbs := by
    rw [digitsVal_replicate_zero, digitsVal_natDigits]
  by_cases hm : m < 0
  · have h := pyParseFloat_strData _ e true hdlt hlen
    rw [hval] at h
    rw [if_true_cond, if_true_cond] at h
    have hstr : pyStrFloat ⟨m, e⟩ =
        ⟨['-'] ++ ((List.replicate (e + 1 - (natDigits m.natAbs).length) 0 ++
            natDigits m.natAbs).take ((List.replicate (e + 1 - (natDigits m.natAbs).length) 0 ++
            natDigits m.natAbs).length - e)).map digitChar ++
          (if e = 0 then [] else '.' :: ((List.replicate (e + 1 - (natDigits m.natAbs).length) 0 ++
            natDigits m.natAbs).drop ((List.replicate (e + 1 - (natDigits m.natAbs).length) 0 ++
            natDigits m.natAbs).length - e)).map digitChar)⟩ := by
      rw [pyStrFloat]
      simp only [if_pos hm]
    rw [hstr, h]
    have : -((m.natAbs : Int)) = m := by omega
    rw [this]
  · have h := pyParseFloat_strData _ e false hdlt hlen
    rw [hval] at h
    rw [if_false_cond, if_false_cond, List.nil_append] at h
    have hstr : pyStrFloat ⟨m, e⟩ =
        ⟨((List.replicate (e + 1 - (natDigits m.natAbs).length) 0 ++
            natDigits m.natAbs).take ((List.replicate (e + 1 - (natDigits m.natAbs).length) 0 ++
            natDigits m.natAbs).length - e)).map digitChar ++
          (if e = 0 then [] else '.' :: ((List.replicate (e + 1 - (natDigits m.natAbs).length) 0 ++
            natDigits m.natAbs).drop ((List.replicate (e + 1 - (natDigits m.natAbs).length) 0 ++
            natDigits m.natAbs).length - e)).map digitChar)⟩ := by
      rw [pyStrFloat]
      simp only [if_neg hm, List.nil_append]
    rw [hstr, h]
    have : ((m.natAbs : Int)) = m := by omega
    rw [this]

end BookScraper

namespace BookScraper

/-! Section: Crawl loop lemmas -/

/-- The Navigator returns `none` exactly when the next link or its href is
absent. -/
theorem find_next_page_url_eq_none_iff (d : Doc) (u : String) :
    find_next_page_url d u = none ↔
      (d.nextLink = none ∨ d.nextLink = some none) := by
  rcases d with ⟨es, nl⟩
  rcases nl with _ | nl
  · simp [find_next_page_url]
  · rcases nl with _ | href
    · simp [find_next_page_url]
    · simp only [find_next_page_url]
      constructor
      · intro h
        exfalso
        split at h
        · exact Option.noConfusion h
        · split at h <;> exact Option.noConfusion h
      · rintro (h | h) <;> simp at h

/-- Running the crawl loop along a successful finite chain visits exactly
the chain's pages in order and returns the concatenation of their parses. -/
theorem scrapeGo_chain (fetch : String → Option Doc) :
    ∀ (ps : List (String × Doc)) (u : String) (d : Doc) (fuel : Nat),
      chainOk fetch ((u, d) :: ps) → ps.length + 1 ≤ fuel →
      scrapeGo fetch fuel u =
        ((((u, d) :: ps).map fun p => parse_book_list_page p.2).flatten,
          ((u, d) :: ps).map Prod.fst) := by
  intro ps
  induction ps with
  | nil =>
    intro u d fuel hchain hfuel
    obtain ⟨hu, hf, hn, -⟩ := hchain
    simp only [chainNext] at hn
    cases fuel with
    | zero => omega
    | succ f =>
      simp only [scrapeGo, if_neg hu, hf, hn]
      simp
  | cons p ps' ih =>
    obtain ⟨u', d'⟩ := p
    intro u d fuel hchain hfuel
    obtain ⟨hu, hf, hn, hrest⟩ := hchain
    simp only [chainNext] at hn
    obtain ⟨hu', hf', hn', hrest'⟩ := hrest
    cases fuel with
    | zero => simp at hfuel
    | succ f =>
      have hih := ih u' d' f ⟨hu', hf', hn', hrest'⟩ (by simp at hfuel ⊢; omega)
      simp only [scrapeGo, if_neg hu, hf, hn]
      rw [hih]
      simp

/-- Running the crawl loop along a chain whose continuation page fails to
fetch returns exactly the records of the pages before the failure. -/
theorem scrapeGo_chainTo (fetch : String → Option Doc) (failUrl : String)
    (hfail : fetch failUrl = none) (hne : failUrl ≠ "") :
    ∀ (ps : List (String × Doc)) (fuel : Nat),
      chainTo fetch failUrl ps → ps.length < fuel →
      scrapeGo fetch fuel (headUrl ps failUrl) =
        ((ps.map fun p => parse_book_list_page p.2).flatten,
          ps.map Prod.fst ++ [failUrl]) := by
  intro ps
  induction ps with
  | nil =>
    intro fuel _ hfuel
    cases fuel with
    | zero => omega
    | succ f =>
      simp only [headUrl, scrapeGo, if_neg hne, hfail]
      simp
  | cons p ps' ih =>
    obtain ⟨u, d⟩ := p
    intro fuel hchain hfuel
    obtain ⟨hu, hf, hn, hrest⟩ := hchain
    cases fuel with
    | zero => simp at hfuel
    | succ f =>
      have hih := ih f hrest (by simp at hfuel ⊢; omega)
      rw [show headUrl ((u, d) :: ps') failUrl = u from rfl]
      simp only [scrapeGo, if_neg hu, hf, hn]
      rw [hih]
      simp

end BookScraper

namespace BookScraper

/-! Section: Flat-file round-trip lemmas -/

theorem zip_header_rowOf (b : Book) :
    csvHeader.zip (rowOf b) =
      [("title", b.title), ("price_gbp", pyStrFloat b.price_gbp),
        ("in_stock", pyStrBool b.in_stock), ("stock_text", b.stock_text),
        ("rating", b.rating), ("product_url", b.product_url)] := rfl

theorem loadInStock_pyStrBool (b : Bool) : loadInStock (pyStrBool b) = b := by
  cases b <;> decide

/-- Reading back a row the sink wrote recovers the book up to the source's
whitespace trimming of text fields; price and stock flag round-trip
exactly. -/
theorem loadRow_rowOf (b : Book) :
    loadRow (csvHeader.zip (rowOf b)) =
      { title := pyStrip b.title, price_gbp := b.price_gbp,
        in_stock := b.in_stock, stock_text := pyStrip b.stock_text,
        rating := pyStrip b.rating, product_url := pyStrip b.product_url } := by
  have h1 : (csvHeader.zip (rowOf b)).lookup "title" = some b.title := rfl
  have h2 : (csvHeader.zip (rowOf b)).lookup "price_gbp" =
      some (pyStrFloat b.price_gbp) := rfl
  have h3 : (csvHeader.zip (rowOf b)).lookup "in_stock" =
      some (pyStrBool b.in_stock) := rfl
  have h4 : (csvHeader.zip (rowOf b)).lookup "stock_text" = some b.stock_text := rfl
  have h5 : (csvHeader.zip (rowOf b)).lookup "rating" = some b.rating := rfl
  have h6 : (csvHeader.zip (rowOf b)).lookup "product_url" = some b.product_url := rfl
  simp only [loadRow, h1, h2, h3, h4, h5, h6, Option.getD_some, loadPriceCell,
    pyParseFloat_pyStrFloat, loadInStock_pyStrBool]

/-- Loading what the sink saved (for a non-empty book list) reads each
book's row back through `loadRow`. -/
theorem load_save_eq (books : List Book) (old : List (List String))
    (h : books ≠ []) :
    load_books_from_csv (save_books_to_csv books old) =
      books.map (fun b => loadRow (csvHeader.zip (rowOf b))) := by
  obtain ⟨b, bs, rfl⟩ := List.exists_cons_of_ne_nil h
  simp only [save_books_to_csv, List.isEmpty_cons, Bool.false_eq_true, if_false,
    load_books_from_csv, List.map_map]
  rfl

end BookScraper

namespace BookScraper

/-! Section: Claim theorems -/

/-- C1: For every listing document, `parse_book_list_page` returns exactly
one Record per listing entry, in document order, however many fields are
missing or malformed; extraction is total, entry-local (the i-th record is
a function of the i-th entry only) and field-local (each field of a record
is a function of its own source fragment of the entry only — the price
fragment determines the price, the availability fragment determines the
stock flag and text, the rating marker determines the rating, and the
heading anchor determines the title and detail URL). -/
theorem extractor_record_per_entry (d : Doc) :
    (parse_book_list_page d).length = d.entries.length ∧
    (∀ i : Nat, (parse_book_list_page d)[i]? = (d.entries[i]?).map extractBook) ∧
    (∀ e e' : Entry, e.priceText = e'.priceText →
      (extractBook e).price_gbp = (extractBook e').price_gbp) ∧
    (∀ e e' : Entry, e.availText = e'.availText →
      (extractBook e).in_stock = (extractBook e').in_stock ∧
      (extractBook e).stock_text = (extractBook e').stock_text) ∧
    (∀ e e' : Entry, e.ratingClasses = e'.ratingClasses →
      (extractBook e).rating = (extractBook e').rating) ∧
    (∀ e e' : Entry, e.titleTag = e'.titleTag →
      (extractBook e).title = (extractBook e').title ∧
      (extractBook e).product_url = (extractBook e').product_url) := by
  refine ⟨?_, ?_, ?_, ?_, ?_, ?_⟩
  · simp [parse_book_list_page]
  · intro i
    simp [parse_book_list_page]
  · intro e e' h
    simp [extractBook, h]
  · intro e e' h
    simp [extractBook, h]
  · intro e e' h
    simp [extractBook, h]
  · intro e e' h
    simp [extractBook, h]

/-- An entry with every fragment missing, for the C1 witness. -/
def c1Entry : Entry := ⟨none, none, none, none⟩

/-- Witness for C1 at a one-entry document whose entry has every fragment
missing. -/
theorem extractor_record_per_entry_witness :
    (parse_book_list_page ⟨[c1Entry], none⟩).length = 1 ∧
    (parse_book_list_page ⟨[c1Entry], none⟩)[0]? = some (extractBook c1Entry) ∧
    (extractBook c1Entry).price_gbp = (extractBook c1Entry).price_gbp :=
  ⟨(extractor_record_per_entry ⟨[c1Entry], none⟩).1,
    (extractor_record_per_entry ⟨[c1Entry], none⟩).2.1 0,
    (extractor_record_per_entry ⟨[c1Entry], none⟩).2.2.1 c1Entry c1Entry rfl⟩

/-- The listing entry of the spec's concrete scenario. -/
def gatsbyEntry : Entry :=
  ⟨some ⟨some "The Great Gatsby", some "../../../catalogue/great-gatsby_1/index.html"⟩,
    some "£12.50", some "In stock (3 available)", some (some ["star-rating", "Four"])⟩

/-- C2: the spec's concrete scenario — title attribute "The Great Gatsby",
href "../../../catalogue/great-gatsby_1/index.html", price text "£12.50",
availability "In stock (3 available)", rating classes
["star-rating", "Four"] — extracts to the stated Record, with the literal
"../../../" → "catalogue/" rewrite applied before concatenating onto the
base URL, and price 12.50. -/
theorem extractor_gatsby_scenario :
    extractBook gatsbyEntry =
      { title := "The Great Gatsby", price_gbp := ⟨1250, 2⟩, in_stock := true,
        stock_text := "In stock (3 available)", rating := "Four",
        product_url :=
          "https://books.toscrape.com/catalogue/catalogue/great-gatsby_1/index.html" } ∧
    (extractBook gatsbyEntry).price_gbp.val = 25 / 2 ∧
    (extractBook gatsbyEntry).product_url =
      BASE_URL ++ "catalogue/catalogue/great-gatsby_1/index.html" := by
  have hb : extractBook gatsbyEntry =
      { title := "The Great Gatsby", price_gbp := ⟨1250, 2⟩, in_stock := true,
        stock_text := "In stock (3 available)", rating := "Four",
        product_url :=
          "https://books.toscrape.com/catalogue/catalogue/great-gatsby_1/index.html" } := by
    decide
  refine ⟨hb, ?_, ?_⟩
  · rw [hb]
    norm_num [PyFloat.val]
  · rw [hb]
    decide

/-- C10: an entry whose heading anchor is absent, or whose anchor lacks an
href, still yields a Record; its detail URL is exactly the base URL, and
every other field is the usual per-fragment extraction. -/
theorem extractor_missing_href_base_url (e : Entry)
    (h : e.titleTag = none ∨ ∃ a, e.titleTag = some a ∧ a.href = none) :
    (extractBook e).product_url = BASE_URL ∧
    (extractBook e).title = extractTitle e.titleTag ∧
    (extractBook e).price_gbp = extractPrice e.priceText ∧
    (extractBook e).in_stock = extractInStock e.availText ∧
    (extractBook e).stock_text = extractStockText e.availText ∧
    (extractBook e).rating = extractRating e.ratingClasses := by
  refine ⟨?_, rfl, rfl, rfl, rfl, rfl⟩
  have hh : extractHref e.titleTag = "" := by
    rcases h with h | ⟨a, h1, h2⟩
    · rw [h]
      rfl
    · rw [h1]
      simp [extractHref, h2]
  show extractUrl e.titleTag = BASE_URL
  rw [show extractUrl e.titleTag =
    BASE_URL ++ pyLStrip '/'
      (pyReplace (extractHref e.titleTag) "../../../" "catalogue/") from rfl, hh]
  decide

/-- Witness for C10 at an entry with no heading anchor at all. -/
theorem extractor_missing_href_base_url_witness :
    (extractBook ⟨none, none, none, none⟩).product_url = BASE_URL ∧
    (extractBook ⟨none, none, none, none⟩).title = extractTitle none :=
  ⟨(extractor_missing_href_base_url ⟨none, none, none, none⟩ (Or.inl rfl)).1,
    (extractor_missing_href_base_url ⟨none, none, none, none⟩ (Or.inl rfl)).2.1⟩

end BookScraper

namespace BookScraper

/-- C3 counterexample: the href `"httpx.html"` carries no scheme and is not
absolute, yet the code returns it as-is because it starts with the literal
`"http"`; the spec's rules would resolve it against the site root's
directory. -/
theorem navigator_scheme_rule_counterexample :
    find_next_page_url ⟨[], some (some "httpx.html")⟩ BASE_URL =
      some "httpx.html" ∧
    carriesScheme "httpx.html" = false ∧
    pyStartsWith "httpx.html" "/" = false ∧
    specResolveNext "httpx.html" BASE_URL =
      "https://books.toscrape.com/httpx.html" ∧
    find_next_page_url ⟨[], some (some "httpx.html")⟩ BASE_URL ≠
      some (specResolveNext "httpx.html" BASE_URL) := by
  refine ⟨by decide, by decide, by decide, by decide, by decide⟩

/-- C3 (amended): for every document containing a next link with an href,
the Navigator resolves it by the priority rules with rule (1)'s test being
the literal prefix test `href.startswith("http")` (not the presence of a
scheme): (1) starts with "http" → as-is; (2) leading slash → site root;
(3) otherwise → directory of `current_url` when it contains "catalogue/",
else the site root's directory. -/
theorem navigator_resolution_http_rule (d : Doc) (u href : String)
    (h : d.nextLink = some (some href)) :
    find_next_page_url d u = some (specResolveNextHttpRule href u) := by
  rcases d with ⟨es, nl⟩
  simp only at h
  subst h
  cases h1 : pyStartsWith href "http" <;> cases h2 : pyStartsWith href "/" <;>
    cases h3 : pyContains u "catalogue/" <;>
      simp [find_next_page_url, specResolveNextHttpRule, h1, h2, h3]

/-- Witness for C3's amended rules on a relative href under the catalogue
path. -/
theorem navigator_resolution_http_rule_witness :
    find_next_page_url ⟨[], some (some "page-2.html")⟩
        "https://books.toscrape.com/catalogue/page-1.html" =
      some (specResolveNextHttpRule "page-2.html"
        "https://books.toscrape.com/catalogue/page-1.html") :=
  navigator_resolution_http_rule ⟨[], some (some "page-2.html")⟩
    "https://books.toscrape.com/catalogue/page-1.html" "page-2.html" rfl

/-- C4: for any finite chain of next links whose last page has no next
link (all fetches succeeding), the crawl loop terminates, visits exactly
the chain's pages in order (so each page exactly once, ending on the page
without a next link), and returns the concatenated records; and the
Navigator signals `none` exactly when the next link or its href is
absent. -/
theorem crawl_chain_termination :
    (∀ (fetch : String → Option Doc) (ps : List (String × Doc)) (u : String)
        (d : Doc) (fuel : Nat),
      chainOk fetch ((u, d) :: ps) → ps.length + 1 ≤ fuel →
      scrape_all_books fetch fuel u =
        ((((u, d) :: ps).map fun p => parse_book_list_page p.2).flatten,
          ((u, d) :: ps).map Prod.fst)) ∧
    (∀ (d : Doc) (u : String),
      find_next_page_url d u = none ↔
        (d.nextLink = none ∨ d.nextLink = some none)) :=
  ⟨fun fetch ps u d fuel h1 h2 => scrapeGo_chain fetch ps u d fuel h1 h2,
    find_next_page_url_eq_none_iff⟩

def c4Url1 : String := "https://books.toscrape.com/catalogue/page-1.html"

def c4Url2 : String := "https://books.toscrape.com/catalogue/page-2.html"

def c4DocA : Doc := ⟨[⟨none, some "£3.00", none, none⟩], some (some "page-2.html")⟩

def c4DocB : Doc := ⟨[], none⟩

def c4Fetch : String → Option Doc := fun u =>
  if u = c4Url1 then some c4DocA else if u = c4Url2 then some c4DocB else none

/-- Witness for C4 on a concrete two-page chain. -/
theorem crawl_chain_termination_witness :
    scrape_all_books c4Fetch 2 c4Url1 =
      ((([(c4Url1, c4DocA), (c4Url2, c4DocB)]).map
          fun p => parse_book_list_page p.2).flatten,
        ([(c4Url1, c4DocA), (c4Url2, c4DocB)]).map Prod.fst) :=
  crawl_chain_termination.1 c4Fetch [(c4Url2, c4DocB)] c4Url1 c4DocA 2
    ⟨by decide, by decide, by decide, by decide, by decide, by decide, trivial⟩
    (by decide)

/-- C5: if the k-th page's fetch fails, the crawl returns exactly the
records of pages 1 through k-1 in page order (nothing from the failing or
later pages, nothing discarded); the empty chain case is a first-page
failure yielding the empty record sequence. -/
theorem crawl_fetch_failure_partial (fetch : String → Option Doc)
    (failUrl : String) (ps : List (String × Doc)) (fuel : Nat)
    (hfail : fetch failUrl = none) (hne : failUrl ≠ "")
    (hchain : chainTo fetch failUrl ps) (hfuel : ps.length < fuel) :
    scrape_all_books fetch fuel (headUrl ps failUrl) =
      ((ps.map fun p => parse_book_list_page p.2).flatten,
        ps.map Prod.fst ++ [failUrl]) :=
  scrapeGo_chainTo fetch failUrl hfail hne ps fuel hchain hfuel

def c5Url1 : String := "https://books.toscrape.com/catalogue/page-1.html"

def c5UrlFail : String := "https://books.toscrape.com/catalogue/page-2.html"

def c5DocA : Doc :=
  ⟨[⟨none, some "£5.00", some "In stock", none⟩], some (some "page-2.html")⟩

def c5Fetch : String → Option Doc := fun u =>
  if u = c5Url1 then some c5DocA else none

/-- Witness for C5: a two-page crawl whose second fetch fails keeps only
the first page's records. -/
theorem crawl_fetch_failure_partial_witness :
    scrape_all_books c5Fetch 2 (headUrl [(c5Url1, c5DocA)] c5UrlFail) =
      (([(c5Url1, c5DocA)].map fun p => parse_book_list_page p.2).flatten,
        [(c5Url1, c5DocA)].map Prod.fst ++ [c5UrlFail]) :=
  crawl_fetch_failure_partial c5Fetch c5UrlFail [(c5Url1, c5DocA)] 2
    (by decide) (by decide)
    ⟨by decide, by decide, by decide, trivial⟩ (by decide)

end BookScraper

namespace BookScraper

/-- C6 counterexample: saving the empty record sequence returns early and
leaves the file's previous contents in place, instead of overwriting it
with a header-only file. -/
theorem sink_empty_save_counterexample :
    save_books_to_csv [] [["stale"]] = [["stale"]] ∧
    save_books_to_csv [] [["stale"]] ≠ [csvHeader] ∧
    ([["stale"]] : List (List String)) ≠ [] := by
  refine ⟨by decide, by decide, by decide⟩

/-- C6 (amended): for every non-empty record sequence the sink fully
overwrites the file — the result is independent of the previous contents
and consists of exactly one header row naming the six fields in the §3
order followed by one row per record, in order; for the empty sequence the
sink writes nothing and leaves the previous contents untouched. -/
theorem sink_overwrite_nonempty (books : List Book)
    (old old' : List (List String)) (h : books ≠ []) :
    save_books_to_csv books old = csvHeader :: books.map rowOf ∧
    save_books_to_csv books old = save_books_to_csv books old' ∧
    (save_books_to_csv books old).length = books.length + 1 ∧
    save_books_to_csv [] old = old := by
  obtain ⟨b, bs, rfl⟩ := List.exists_cons_of_ne_nil h
  exact ⟨rfl, rfl, by simp [save_books_to_csv], rfl⟩

def c6Book : Book := ⟨"t", ⟨50, 1⟩, true, "In stock", "Five", "u"⟩

/-- Witness for C6's amended statement at a one-record save over stale
contents. -/
theorem sink_overwrite_nonempty_witness :
    save_books_to_csv [c6Book] [["stale"]] = csvHeader :: [c6Book].map rowOf ∧
    save_books_to_csv [c6Book] [["stale"]] = save_books_to_csv [c6Book] [] ∧
    (save_books_to_csv [c6Book] [["stale"]]).length = [c6Book].length + 1 ∧
    save_books_to_csv [] [["stale"]] = [["stale"]] :=
  sink_overwrite_nonempty [c6Book] [["stale"]] [] (by decide)

/-- C7 counterexample: a row with every column missing loads with title
`""` and rating `""`, but the extractor's documented missing-field
defaults are `"UNKNOWN"` and `"Unknown"` (and its detail-URL default is
the base URL, not `""`), so the loader's defaults do not all equal the
extractor's. -/
theorem source_missing_column_counterexample :
    loadRow [] = ⟨"", pyFloatZero, false, "", "", ""⟩ ∧
    extractTitle none = "UNKNOWN" ∧
    extractRating none = "Unknown" ∧
    (loadRow []).title ≠ extractTitle none ∧
    (loadRow []).rating ≠ extractRating none ∧
    (loadRow []).product_url ≠ extractUrl none := by
  refine ⟨by decide, by decide, by decide, by decide, by decide, by decide⟩

/-- C7 (amended): a missing column defaults the corresponding field to the
empty string / false / 0.0 as appropriate; these loader defaults agree
with the extractor's own missing-field defaults for price (numerically),
the stock flag and the stock text, but differ for title (`""` vs
`"UNKNOWN"`), rating (`""` vs `"Unknown"`) and detail URL (`""` vs the
base URL). -/
theorem source_missing_column_defaults (row : List (String × String)) :
    (row.lookup "title" = none → (loadRow row).title = "") ∧
    (row.lookup "price_gbp" = none → (loadRow row).price_gbp = pyFloatZero) ∧
    (row.lookup "in_stock" = none → (loadRow row).in_stock = false) ∧
    (row.lookup "stock_text" = none → (loadRow row).stock_text = "") ∧
    (row.lookup "rating" = none → (loadRow row).rating = "") ∧
    (row.lookup "product_url" = none → (loadRow row).product_url = "") ∧
    (pyFloatZero.val = (extractPrice none).val ∧
      (loadRow []).in_stock = extractInStock none ∧
      (loadRow []).stock_text = extractStockText none) ∧
    ((loadRow []).title ≠ extractTitle none ∧
      (loadRow []).rating ≠ extractRating none ∧
      (loadRow []).product_url ≠ extractUrl none) := by
  refine ⟨?_, ?_, ?_, ?_, ?_, ?_, ⟨?_, by decide, by decide⟩,
    ⟨by decide, by decide, by decide⟩⟩
  · intro h
    simp [loadRow, h]
    decide
  · intro h
    simp [loadRow, h]
  · intro h
    simp [loadRow, h]
    decide
  · intro h
    simp [loadRow, h]
    decide
  · intro h
    simp [loadRow, h]
    decide
  · intro h
    simp [loadRow, h]
    decide
  · have h1 : extractPrice none = ⟨0, 2⟩ := by decide
    rw [h1]
    norm_num [PyFloat.val, pyFloatZero]

/-- Witness for C7's amended statement on a row whose only column is
unrelated. -/
theorem source_missing_column_defaults_witness :
    (loadRow [("extra", "1")]).title = "" ∧
    (loadRow [("extra", "1")]).price_gbp = pyFloatZero ∧
    (loadRow [("extra", "1")]).rating = "" :=
  ⟨(source_missing_column_defaults [("extra", "1")]).1 rfl,
    (source_missing_column_defaults [("extra", "1")]).2.1 rfl,
    (source_missing_column_defaults [("extra", "1")]).2.2.2.2.1 rfl⟩

/-- C8: the stock flag round-trips unchanged through the flat file for
both boolean values, and the source interprets an `in_stock` cell as true
exactly when its lowercase text is `"true"`, `"1"` or `"yes"`. -/
theorem in_stock_roundtrip :
    (∀ (books : List Book) (old : List (List String)), books ≠ [] →
      (load_books_from_csv (save_books_to_csv books old)).map Book.in_stock =
        books.map Book.in_stock) ∧
    (∀ cell : String, loadInStock cell = true ↔
      (pyLower cell = "true" ∨ pyLower cell = "1" ∨ pyLower cell = "yes")) := by
  constructor
  · intro books old h
    rw [load_save_eq books old h, List.map_map]
    exact List.map_congr_left fun b _ => by
      simp only [Function.comp_apply, loadRow_rowOf]
  · intro cell
    simp [loadInStock]
    tauto

/-- Witness for C8 on a one-record save/load of each boolean value. -/
theorem in_stock_roundtrip_witness :
    (load_books_from_csv (save_books_to_csv
        [⟨"a", ⟨10, 1⟩, true, "s", "One", "u"⟩,
          ⟨"b", ⟨20, 1⟩, false, "t", "Two", "v"⟩] [])).map Book.in_stock =
      [⟨"a", ⟨10, 1⟩, true, "s", "One", "u"⟩,
        ⟨"b", ⟨20, 1⟩, false, "t", "Two", "v"⟩].map Book.in_stock ∧
    (loadInStock "True" = true ↔
      (pyLower "True" = "true" ∨ pyLower "True" = "1" ∨ pyLower "True" = "yes")) :=
  ⟨in_stock_roundtrip.1 _ [] (by decide), in_stock_roundtrip.2 "True"⟩

/-- C9: the price round-trips through the sink and source with the same
numeric value (exactly, in this decimal model of the program's floats);
a cell that fails to parse as a number degrades to `0.0`. -/
theorem price_roundtrip :
    (∀ (books : List Book) (old : List (List String)), books ≠ [] →
      (load_books_from_csv (save_books_to_csv books old)).map Book.price_gbp =
        books.map Book.price_gbp ∧
      (load_books_from_csv (save_books_to_csv books old)).map
          (fun b => b.price_gbp.val) =
        books.map (fun b => b.price_gbp.val)) ∧
    (∀ cell : String, pyParseFloat cell = none → loadPriceCell cell = pyFloatZero) ∧
    pyFloatZero.val = 0 := by
  refine ⟨?_, ?_, ?_⟩
  · intro books old h
    constructor
    · rw [load_save_eq books old h, List.map_map]
      exact List.map_congr_left fun b _ => by
        simp only [Function.comp_apply, loadRow_rowOf]
    · rw [load_save_eq books old h, List.map_map]
      exact List.map_congr_left fun b _ => by
        simp only [Function.comp_apply, loadRow_rowOf]
  · intro cell h
    simp [loadPriceCell, h]
  · norm_num [PyFloat.val, pyFloatZero]

/-- Witness for C9 on a one-record save/load and an unparsable cell. -/
theorem price_roundtrip_witness :
    (load_books_from_csv (save_books_to_csv
        [⟨"a", ⟨1250, 2⟩, true, "s", "One", "u"⟩] [])).map Book.price_gbp =
      [⟨"a", ⟨1250, 2⟩, true, "s", "One", "u"⟩].map Book.price_gbp ∧
    loadPriceCell "abc" = pyFloatZero :=
  ⟨(price_roundtrip.1 [⟨"a", ⟨1250, 2⟩, true, "s", "One", "u"⟩] [] (by decide)).1,
    price_roundtrip.2.1 "abc" (by decide)⟩

end BookScraper
